import Mathlib

/-!
Verification of the seo-generator asset pipeline.

JavaScript strings are modelled as `List Char`.  Each definition below is a
direct translation of one function of the repository (the source file and
line range are given in its doc comment).  Ambient effects are made explicit:
the current date and the session identifier become parameters, and fallible
filesystem or rendering operations take a success oracle
(`List Char → Bool`) naming the object being created.
-/

/-- ASCII whitespace recognised by JS `String.prototype.trim`
(space, tab, LF, VT, FF, CR). -/
def isJsWs (c : Char) : Bool :=
  c = ' ' || c = '\t' || c = '\n' || c = Char.ofNat 11 || c = Char.ofNat 12 || c = '\r'

/-- Drop the longest suffix whose characters satisfy `p`. -/
def dropWhileRight (p : Char → Bool) (l : List Char) : List Char :=
  (l.reverse.dropWhile p).reverse

/-- Model of JS `String.prototype.trim`. -/
def jsTrim (l : List Char) : List Char :=
  dropWhileRight isJsWs (l.dropWhile isJsWs)

/-- Model of JS `str.replace(/c/g, rep)` for a single-character pattern `c`:
every occurrence of `c` is replaced by `rep`. -/
def replaceAllChar (c : Char) (rep : List Char) : List Char → List Char
  | [] => []
  | x :: xs => (if x = c then rep else [x]) ++ replaceAllChar c rep xs

/-- Model of JS `str.replace(/\/+$/, '')`: remove the trailing run of slashes. -/
def stripTrailingSlashes (l : List Char) : List Char :=
  dropWhileRight (fun c => c = '/') l

/-- Model of JS `str.split('\n')`. -/
def splitOnNl : List Char → List (List Char)
  | [] => [[]]
  | c :: rest =>
    if c = '\n' then [] :: splitOnNl rest
    else
      match splitOnNl rest with
      | [] => [[c]]
      | g :: gs => (c :: g) :: gs

/-- JS string truthiness for the `a || b` idiom: an empty string is falsy. -/
def jsOr (a b : List Char) : List Char :=
  if a.isEmpty then b else a

/-- Model of Node `path.basename` on a path without a trailing slash:
the segment after the last `/`. -/
def jsBasename (p : List Char) : List Char :=
  (p.reverse.takeWhile (fun c => c != '/')).reverse

/-- Substring test: `containsSub pat s` holds when `pat` occurs contiguously
inside `s`. -/
def containsSub (pat : List Char) : List Char → Bool
  | [] => pat.isEmpty
  | c :: rest => pat.isPrefixOf (c :: rest) || containsSub pat rest

/-- Lowercase hexadecimal digit (the alphabet of `crypto.randomUUID` after
removing dashes). -/
def isHexDigit (c : Char) : Bool :=
  c.isDigit || ('a' ≤ c && c ≤ 'f')

/-- The first `n` characters of `s` exist and are all hex digits. -/
def hexWindow (n : Nat) (s : List Char) : Bool :=
  decide (n ≤ s.length) && (s.take n).all isHexDigit

/-- Some contiguous window of `n` characters of `s` is all hex digits. -/
def hasHexRun (n : Nat) : List Char → Bool
  | [] => hexWindow n []
  | c :: rest => hexWindow n (c :: rest) || hasHexRun n rest

/-- Fuel-driven digit accumulator for `natToChars`. -/
def natToCharsAux : Nat → Nat → List Char
  | 0, _ => []
  | fuel + 1, n =>
    if n < 10 then [Char.ofNat (48 + n)]
    else natToCharsAux fuel (n / 10) ++ [Char.ofNat (48 + n % 10)]

/-- Decimal rendering of a natural number (JS template interpolation of a
number). -/
def natToChars (n : Nat) : List Char :=
  natToCharsAux (n + 1) n

/-! ## SEOGenerator (src/unnamed/part_002) -/

/-- Model of `sanitizeText` (part_002 lines 83-85): trim, then replace every
`<` with `&lt;` and every `>` with `&gt;`. -/
def sanitizeText (text : List Char) : List Char :=
  replaceAllChar '>' "&gt;".toList (replaceAllChar '<' "&lt;".toList (jsTrim text))

/-- Model of the URL cleanup at part_002 line 24:
`websiteUrl.trim().replace(/\/+$/, '')`. -/
def cleanWebsiteUrl (websiteUrl : List Char) : List Char :=
  stripTrailingSlashes (jsTrim websiteUrl)

/-- Model of the inner `links` pipeline of `parseSiteLinks`
(part_002 lines 98-108): split on newlines, trim, drop empties, keep only
lines accepted by the URL validity check.  The `new URL(link)` try/catch is
abstracted as the boolean parameter `isURL`. -/
def filteredSiteLinks (isURL : List Char → Bool) (siteLinks : List Char) :
    List (List Char) :=
  (((splitOnNl (jsTrim siteLinks)).map jsTrim).filter
      (fun l => decide (l.length > 0))).filter isURL

/-- Model of `parseSiteLinks` (part_002 lines 93-116).  `siteLinks` is
`Option` because the form field may be absent (`undefined`, falsy like the
empty string). -/
def parseSiteLinks (isURL : List Char → Bool) (siteLinks : Option (List Char))
    (websiteUrl : List Char) : List (List Char) :=
  match siteLinks with
  | none => [websiteUrl]
  | some raw =>
    if (jsTrim raw).isEmpty then [websiteUrl]
    else
      let links := filteredSiteLinks isURL raw
      if websiteUrl ∉ links ∧ websiteUrl ++ ['/'] ∉ links then
        websiteUrl :: links
      else if links.length > 0 then links else [websiteUrl]

/-- A `<url>` element of the generated sitemap. -/
structure UrlEntry where
  loc : List Char
  lastmod : List Char
  changefreq : List Char
  priority : List Char
deriving DecidableEq

/-- Model of the `urlEntries` map inside `generateSitemapTemplate`
(part_002 lines 283-295).  `new Date().toISOString().split('T')[0]` becomes
the explicit parameter `today`. -/
def sitemapUrlEntries (today websiteUrl : List Char)
    (siteLinks : List (List Char)) : List UrlEntry :=
  siteLinks.map fun url =>
    let isHomepage : Bool := url = websiteUrl || url = websiteUrl ++ ['/']
    { loc := if url.getLast? = some '/' then url else url ++ ['/']
      lastmod := today
      changefreq := if isHomepage then "daily".toList else "weekly".toList
      priority := if isHomepage then "1.0".toList else "0.8".toList }

/-! ## IconGenerator (src/utils/iconGenerator.js) -/

/-- One entry of the `iconSizes` configuration (iconGenerator.js lines 9-20).
The `width`/`height` fields are present only on the og-image entry in the
source; they are carried as options here. -/
structure IconSpec where
  size : Nat
  name : List Char
  rel : List Char
  type : List Char
  width : Option Nat := none
  height : Option Nat := none
deriving DecidableEq

/-- The fixed `iconSizes` catalog configuration (iconGenerator.js lines 9-20). -/
def iconSizes : List IconSpec :=
  [ ⟨16, "favicon-16x16.png".toList, "icon".toList, "image/png".toList, none, none⟩,
    ⟨32, "favicon-32x32.png".toList, "icon".toList, "image/png".toList, none, none⟩,
    ⟨48, "favicon-48x48.png".toList, "icon".toList, "image/png".toList, none, none⟩,
    ⟨64, "favicon-64x64.png".toList, "icon".toList, "image/png".toList, none, none⟩,
    ⟨96, "favicon-96x96.png".toList, "icon".toList, "image/png".toList, none, none⟩,
    ⟨128, "favicon-128x128.png".toList, "icon".toList, "image/png".toList, none, none⟩,
    ⟨180, "apple-touch-icon.png".toList, "apple-touch-icon".toList, "image/png".toList, none, none⟩,
    ⟨192, "android-chrome-192x192.png".toList, "icon".toList, "image/png".toList, none, none⟩,
    ⟨512, "android-chrome-512x512.png".toList, "icon".toList, "image/png".toList, none, none⟩,
    ⟨1200, "og-image.png".toList, "og-image".toList, "image/png".toList, some 1200, some 630⟩ ]

/-- Colour with integer channels and a 0/1 alpha flag, as passed to sharp. -/
structure RGBA where
  r : Nat
  g : Nat
  b : Nat
  a : Nat
deriving DecidableEq

inductive Gravity
  | center
deriving DecidableEq

/-- Abstract syntax of the sharp image pipelines used by the generator. -/
inductive ImgExpr
  | source
  | create (width height : Nat) (background : RGBA)
  | resizeContain (base : ImgExpr) (width height : Nat) (background : RGBA)
  | composite (base overlay : ImgExpr) (g : Gravity)
deriving DecidableEq

/-- Model of `generateOGImage` (iconGenerator.js lines 136-157): a 400x400
contain-fit reduction of the source, composited centered over an opaque
white 1200x630 canvas. -/
def ogImageExpr : ImgExpr :=
  .composite (.create 1200 630 ⟨255, 255, 255, 1⟩)
    (.resizeContain .source 400 400 ⟨0, 0, 0, 0⟩) .center

/-- Model of the square-icon branch (iconGenerator.js lines 68-74):
contain-fit resize with transparent white padding. -/
def squareIconExpr (size : Nat) : ImgExpr :=
  .resizeContain .source size size ⟨255, 255, 255, 0⟩

/-- True exactly when the pipeline is a bare contain-resize of the source. -/
def isResizeOfSource : ImgExpr → Bool
  | .resizeContain .source _ _ _ => true
  | _ => false

/-- True exactly when the pipeline composites an overlay over an opaque
solid canvas. -/
def isCompositeOverSolid : ImgExpr → Bool
  | .composite (.create _ _ bg) _ _ => bg.a = 1
  | _ => false

/-- One entry of the produced icon catalog (iconGenerator.js lines 88-95). -/
structure IconDescriptor where
  name : List Char
  href : List Char
  userHref : List Char
  sizes : List Char
  type : List Char
  rel : List Char
deriving DecidableEq

/-- The distinguished social-preview descriptor (iconGenerator.js lines 59-65). -/
structure OGImageData where
  href : List Char
  userHref : List Char
  width : Nat
  height : Nat
  type : List Char
deriving DecidableEq

/-- Internal serving path of a generated file (iconGenerator.js lines 52-54
and 78-80). -/
def serverPathFor (sessionDir : Option (List Char)) (name : List Char) :
    List Char :=
  match sessionDir with
  | some d => "/generated/sessions/".toList ++ (jsBasename d ++ ("/icons/".toList ++ name))
  | none => "/generated/icons/".toList ++ name

/-- External user-facing path (iconGenerator.js lines 84-86). -/
def userPathFor (name : List Char) : List Char :=
  if name = "favicon.ico".toList then "/favicon.ico".toList
  else "/icons/".toList ++ name

/-- A file written to disk together with its content. -/
structure GeneratedFile (α : Type) where
  path : List Char
  content : α
deriving DecidableEq

structure ManifestIcon where
  src : List Char
  sizes : List Char
  type : List Char
  purpose : List Char
deriving DecidableEq

structure WebManifest where
  name : List Char
  shortName : List Char
  description : List Char
  startUrl : List Char
  display : List Char
  themeColor : List Char
  backgroundColor : List Char
  orient : List Char
  icons : List ManifestIcon
deriving DecidableEq

/-- Model of `generateWebManifest` (iconGenerator.js lines 203-240): the
manifest content is a literal, only the output path depends on the session
directory. -/
def generateWebManifest (sessionDir : Option (List Char)) :
    GeneratedFile WebManifest :=
  { path :=
      match sessionDir with
      | some d => d ++ "/site.webmanifest".toList
      | none => "generated/site.webmanifest".toList
    content :=
      { name := "Your Website".toList
        shortName := "YourSite".toList
        description := "Your website description".toList
        startUrl := "/".toList
        display := "standalone".toList
        themeColor := "#ffffff".toList
        backgroundColor := "#ffffff".toList
        orient := "portrait-primary".toList
        icons :=
          [ ⟨"/icons/android-chrome-192x192.png".toList, "192x192".toList,
              "image/png".toList, "maskable any".toList⟩,
            ⟨"/icons/android-chrome-512x512.png".toList, "512x512".toList,
              "image/png".toList, "maskable any".toList⟩ ] } }

/-- Model of `generateBrowserConfig` (iconGenerator.js lines 246-269): the
XML content is a literal, only the output path depends on the session
directory. -/
def generateBrowserConfig (sessionDir : Option (List Char)) :
    GeneratedFile (List Char) :=
  { path :=
      match sessionDir with
      | some d => d ++ "/browserconfig.xml".toList
      | none => "generated/browserconfig.xml".toList
    content :=
      ("<?xml version=\"1.0\" encoding=\"utf-8\"?>\n<browserconfig>\n    <msapplication>\n        <tile>\n            <square150x150logo src=\"/icons/android-chrome-192x192.png\"/>\n            <square310x310logo src=\"/icons/android-chrome-512x512.png\"/>\n            <TileColor>#ffffff</TileColor>\n        </tile>\n    </msapplication>\n</browserconfig>").toList }

/-- The object returned by `generateIcons` (iconGenerator.js lines 113-125). -/
structure IconData where
  icons : List IconDescriptor
  ogImage : Option OGImageData
  webManifest : GeneratedFile WebManifest
  browserConfig : GeneratedFile (List Char)
  sessionDir : Option (List Char)
deriving DecidableEq

/-- Model of the per-spec loop body of `generateIcons` (iconGenerator.js
lines 44-102): when rendering the file named by the spec succeeds, a
descriptor with internal and external paths is pushed; a render failure is
caught and the spec is skipped. -/
def iconDescriptorFor (sessionDir : Option (List Char)) (spec : IconSpec) :
    IconDescriptor :=
  { name := spec.name
    href := serverPathFor sessionDir spec.name
    userHref := userPathFor spec.name
    sizes := natToChars spec.size ++ ('x' :: natToChars spec.size)
    type := spec.type
    rel := spec.rel }

/-- Model of `generateIcons` (iconGenerator.js lines 30-131).  `renderOk`
is the success oracle for rendering each named output file (the per-size
try/catch logs and skips failures).  Note the descriptor push is NOT
restricted to square sizes: the og-image spec is pushed into `icons` too. -/
def generateIcons (renderOk : List Char → Bool) (sessionDir : Option (List Char)) :
    IconData :=
  { icons := iconSizes.filterMap fun spec =>
      if renderOk spec.name then some (iconDescriptorFor sessionDir spec)
      else none
    ogImage :=
      if renderOk "og-image.png".toList then
        some { href := serverPathFor sessionDir "og-image.png".toList
               userHref := "/icons/og-image.png".toList
               width := 1200
               height := 630
               type := "image/png".toList }
      else none
    webManifest := generateWebManifest sessionDir
    browserConfig := generateBrowserConfig sessionDir
    sessionDir := sessionDir }

/-- The forEach body of `generateMetaTags` (part_002 lines 135-142): one
icon descriptor contributes a `<link rel="icon">` or
`<link rel="apple-touch-icon">` tag built from
`icon.userHref || icon.href`, or nothing for any other rel. -/
def metaIconTagFor (icon : IconDescriptor) : Option (List Char) :=
  let href := jsOr icon.userHref icon.href
  if icon.rel = "icon".toList then
    some ("<link rel=\"icon\" type=\"".toList ++ icon.type ++
      "\" sizes=\"".toList ++ icon.sizes ++ "\" href=\"".toList ++ href ++ "\">".toList)
  else if icon.rel = "apple-touch-icon".toList then
    some ("<link rel=\"apple-touch-icon\" sizes=\"".toList ++ icon.sizes ++
      "\" href=\"".toList ++ href ++ "\">".toList)
  else none

/-- Model of `generateMetaTags` (part_002 lines 121-146).  The forEach with
conditional pushes becomes a `filterMap` of `metaIconTagFor`. -/
def generateMetaTags (title description websiteUrl : List Char)
    (iconData : Option IconData) : List (List Char) :=
  let tags : List (List Char) :=
    [ "<meta charset=\"UTF-8\">".toList,
      "<meta name=\"viewport\" content=\"width=device-width, initial-scale=1.0\">".toList,
      "<title>".toList ++ title ++ "</title>".toList,
      "<meta name=\"description\" content=\"".toList ++ description ++ "\">".toList,
      "<meta name=\"robots\" content=\"index, follow\">".toList,
      "<meta name=\"author\" content=\"".toList ++ title ++ "\">".toList,
      "<meta name=\"generator\" content=\"SEO Generator v1.0\">".toList,
      "<link rel=\"canonical\" href=\"".toList ++ websiteUrl ++ "/\">".toList ]
  match iconData with
  | none => tags
  | some d => tags ++ d.icons.filterMap metaIconTagFor

/-- Model of `generateOpenGraphTags` (part_002 lines 151-173). -/
def generateOpenGraphTags (title description websiteUrl : List Char)
    (iconData : Option IconData) : List (List Char) :=
  let tags : List (List Char) :=
    [ "<meta property=\"og:title\" content=\"".toList ++ title ++ "\">".toList,
      "<meta property=\"og:description\" content=\"".toList ++ description ++ "\">".toList,
      "<meta property=\"og:type\" content=\"website\">".toList,
      "<meta property=\"og:url\" content=\"".toList ++ websiteUrl ++ "/\">".toList,
      "<meta property=\"og:site_name\" content=\"".toList ++ title ++ "\">".toList,
      "<meta property=\"og:locale\" content=\"en_US\">".toList ]
  match iconData with
  | none => tags
  | some d =>
    match d.ogImage with
    | none => tags
    | some og =>
      let imageHref := jsOr og.userHref og.href
      tags ++
        [ "<meta property=\"og:image\" content=\"".toList ++ websiteUrl ++ imageHref ++ "\">".toList,
          "<meta property=\"og:image:width\" content=\"".toList ++ natToChars og.width ++ "\">".toList,
          "<meta property=\"og:image:height\" content=\"".toList ++ natToChars og.height ++ "\">".toList,
          "<meta property=\"og:image:type\" content=\"".toList ++ og.type ++ "\">".toList ]

/-- Model of `generateTwitterTags` (part_002 lines 178-194). -/
def generateTwitterTags (title description websiteUrl : List Char)
    (iconData : Option IconData) : List (List Char) :=
  let tags : List (List Char) :=
    [ "<meta name=\"twitter:card\" content=\"summary_large_image\">".toList,
      "<meta name=\"twitter:title\" content=\"".toList ++ title ++ "\">".toList,
      "<meta name=\"twitter:description\" content=\"".toList ++ description ++ "\">".toList,
      "<meta name=\"twitter:site\" content=\"@yourhandle\">".toList,
      "<meta name=\"twitter:creator\" content=\"@yourhandle\">".toList ]
  match iconData with
  | none => tags
  | some d =>
    match d.ogImage with
    | none => tags
    | some og =>
      let imageHref := jsOr og.userHref og.href
      tags ++
        [ "<meta name=\"twitter:image\" content=\"".toList ++ websiteUrl ++ imageHref ++ "\">".toList ]

/-- The SEO data structure returned by `generateSEO` (part_002 lines 61-77);
the sitemap is carried as its list of url entries. -/
structure SeoData where
  title : List Char
  description : List Char
  websiteUrl : List Char
  siteLinks : List (List Char)
  metaTags : List (List Char)
  openGraphTags : List (List Char)
  twitterTags : List (List Char)
  sitemapEntries : List UrlEntry
  iconData : Option IconData
  sessionId : List Char
deriving DecidableEq

/-- Model of `generateSEO` (part_002 lines 18-78).  The current date is the
explicit parameter `today`; file persistence (lines 51-59, logged-and-skipped
per file) does not affect the returned value and is not modelled. -/
def generateSEO (isURL : List Char → Bool) (today : List Char)
    (title description websiteUrl : List Char) (siteLinks : Option (List Char))
    (iconData : Option IconData) (sessionId : List Char) : SeoData :=
  let cleanTitle := sanitizeText title
  let cleanDescription := sanitizeText description
  let cleanUrl := cleanWebsiteUrl websiteUrl
  let parsedSiteLinks := parseSiteLinks isURL siteLinks cleanUrl
  { title := cleanTitle
    description := cleanDescription
    websiteUrl := cleanUrl
    siteLinks := parsedSiteLinks
    metaTags := generateMetaTags cleanTitle cleanDescription cleanUrl iconData
    openGraphTags := generateOpenGraphTags cleanTitle cleanDescription cleanUrl iconData
    twitterTags := generateTwitterTags cleanTitle cleanDescription cleanUrl iconData
    sitemapEntries := sitemapUrlEntries today cleanUrl parsedSiteLinks
    iconData := iconData
    sessionId := sessionId }

/-! ## Session store and routes (src/unnamed/part_005) -/

/-- The session namespace path `generated/sessions/<sessionId>`
(part_005 line 23). -/
def sessionDirOf (sessionId : List Char) : List Char :=
  "generated/sessions/".toList ++ sessionId

/-- The directory list attempted by `createSessionDirectories`
(part_005 lines 24-31). -/
def sessionDirsToCreate (sessionId : List Char) : List (List Char) :=
  [ "uploads".toList,
    "generated".toList,
    "generated/sessions".toList,
    sessionDirOf sessionId,
    sessionDirOf sessionId ++ "/icons".toList,
    sessionDirOf sessionId ++ "/temp".toList ]

structure MkdirResult where
  created : List (List Char)
  returnedDir : List Char
deriving DecidableEq

/-- Model of `createSessionDirectories` (part_005 lines 22-42): each
`fs.mkdir` failure is caught and logged inside the loop, the loop continues,
and the session path is returned unconditionally.  `mkdirOk` is the success
oracle for `fs.mkdir`. -/
def createSessionDirectories (mkdirOk : List Char → Bool) (sessionId : List Char) :
    MkdirResult :=
  { created := (sessionDirsToCreate sessionId).filter mkdirOk
    returnedDir := sessionDirOf sessionId }

/-- A directory entry of `generated/sessions` as seen by the cleanup sweep. -/
structure SessEntry where
  name : List Char
  mtimeMs : Int
  isDir : Bool
deriving DecidableEq

/-- The two-hour TTL in milliseconds (part_005 line 51). -/
def ttlMs : Int := 2 * 60 * 60 * 1000

/-- Model of the for-loop of `cleanupOldSessions` (part_005 lines 53-61)
returning the surviving entries.  The try/catch is OUTSIDE the loop
(lines 46-64), so the first failing `fs.rmdir` ends the sweep and every
remaining entry survives untouched.  `rmOk` is the success oracle for
`fs.rmdir`. -/
def sweepSessions (rmOk : List Char → Bool) (cutoff : Int) :
    List SessEntry → List SessEntry
  | [] => []
  | s :: rest =>
    if s.isDir ∧ s.mtimeMs < cutoff then
      if rmOk s.name then sweepSessions rmOk cutoff rest
      else s :: rest
    else s :: sweepSessions rmOk cutoff rest

/-- Model of `cleanupOldSessions` (part_005 lines 45-65): `Date.now()` is the
explicit parameter `nowMs`. -/
def cleanupOldSessions (rmOk : List Char → Bool) (nowMs : Int)
    (sessions : List SessEntry) : List SessEntry :=
  sweepSessions rmOk (nowMs - ttlMs) sessions

/-- JS falsiness of an optional string form field. -/
def jsFalsyOpt : Option (List Char) → Bool
  | none => true
  | some l => l.isEmpty

/-- The body of a generate request (part_005 line 176). -/
structure GenRequest where
  siteTitle : Option (List Char)
  siteDescription : Option (List Char)
  websiteUrl : Option (List Char)
  siteLinks : Option (List Char)
  file : Option (List Char)
deriving DecidableEq

inductive GenOutcome
  | validationError
  | success (data : SeoData)
  | genError
deriving DecidableEq

def isSuccess : GenOutcome → Bool
  | .success _ => true
  | _ => false

/-- Model of the `/generate` route handler (part_005 lines 171-257).
`decodeOk` models whether the uploaded source image opens and decodes (a
failure there makes `generateIcons` throw, which the handler catches,
rendering the generic error).  `createSessionDirectories` never throws, so
its result feeds straight into generation. -/
def postGenerate (mkdirOk renderOk : List Char → Bool) (decodeOk : Bool)
    (isURL : List Char → Bool) (today sessionId : List Char)
    (req : GenRequest) : GenOutcome :=
  if jsFalsyOpt req.siteTitle || jsFalsyOpt req.siteDescription ||
      jsFalsyOpt req.websiteUrl then
    .validationError
  else
    let sdir := (createSessionDirectories mkdirOk sessionId).returnedDir
    match req.file with
    | some _ =>
      if decodeOk then
        let iconData := generateIcons renderOk (some sdir)
        .success (generateSEO isURL today (req.siteTitle.getD [])
          (req.siteDescription.getD []) (req.websiteUrl.getD [])
          req.siteLinks (some iconData) sessionId)
      else .genError
    | none =>
      .success (generateSEO isURL today (req.siteTitle.getD [])
        (req.siteDescription.getD []) (req.websiteUrl.getD [])
        req.siteLinks none sessionId)

/-! ## Credit ledger (src/unnamed/part_004) and enhance route -/

/-- A row of the `users` table restricted to the fields the credit logic
reads. -/
structure UserRow where
  id : Nat
  credits : Int
deriving DecidableEq

/-- The WHERE clause of the conditional UPDATE in `updateCredits`
(part_004 lines 150-154): `id = ? AND credits >= ?`. -/
def creditRowPred (uid : Nat) (n : Int) (r : UserRow) : Bool :=
  decide (r.id = uid ∧ n ≤ r.credits)

/-- Model of `Database.getUserById` (part_004 lines 125-146); a missing row
rejects with `User not found`, modelled as `none`. -/
def getUserById (rows : List UserRow) (uid : Nat) : Option UserRow :=
  rows.find? fun r => decide (r.id = uid)

/-- Model of `Database.updateCredits` (part_004 lines 148-170): one
conditional UPDATE debits `n` from the row with matching id whose balance
covers it; when no row was affected the call rejects with
`Insufficient credits`.  Returns the new table and the outcome
(`resolve(this.changes > 0)`). -/
def updateCredits (rows : List UserRow) (uid : Nat) (n : Int) :
    List UserRow × Except (List Char) Bool :=
  let rows2 := rows.map fun r =>
    if creditRowPred uid n r then { r with credits := r.credits - n } else r
  if rows.countP (creditRowPred uid n) = 0 then
    (rows2, .error "Insufficient credits".toList)
  else (rows2, .ok true)

inductive EnhResp
  | auth401
  | insufficient402
  | badRequest400
  | serverError500
  | ok200 (enhanced : List Char) (remaining : Bool)
deriving DecidableEq

structure EnhResult where
  resp : EnhResp
  aiCalled : Bool
  rows : List UserRow
deriving DecidableEq

/-- Model of `requireCredits(1)` (middleware, server.js part lines 119-147)
composed with the `/enhance-description` handler (part_005 lines 124-168).
`aiCalled` records whether the upstream `ai.enhanceDescription` call was
issued; `aiText` is its reply.  A failed user lookup is the middleware's 500
path; the handler maps an `Insufficient credits` rejection of the debit to
402 and trims the upstream reply on success. -/
def enhanceRequest (rows : List UserRow) (sessionUid : Option Nat)
    (description : Option (List Char)) (aiText : List Char) : EnhResult :=
  match sessionUid with
  | none => ⟨.auth401, false, rows⟩
  | some uid =>
    match getUserById rows uid with
    | none => ⟨.serverError500, false, rows⟩
    | some user =>
      if user.credits < 1 then ⟨.insufficient402, false, rows⟩
      else
        match description with
        | none => ⟨.badRequest400, false, rows⟩
        | some d =>
          if (jsTrim d).isEmpty then ⟨.badRequest400, false, rows⟩
          else
            match updateCredits rows uid 1 with
            | (rows2, .error e) =>
              if e = "Insufficient credits".toList then ⟨.insufficient402, false, rows2⟩
              else ⟨.serverError500, false, rows2⟩
            | (rows2, .ok b) => ⟨.ok200 (jsTrim aiText) b, true, rows2⟩

/-- Model of `new URL(link)` succeeding, restricted to the hierarchical URLs
this application handles: a nonempty alphabetic scheme, then `://`, then a
nonempty remainder. -/
def jsIsValidURL (l : List Char) : Bool :=
  let scheme := l.takeWhile Char.isAlpha
  let rest := l.drop scheme.length
  !scheme.isEmpty && "://".toList.isPrefixOf rest && decide (rest.length > 3)

/-! ## Escaping characterisation used by claim C7 -/

/-- Character-wise escaping: exactly `<` and `>` are rewritten, every other
character is kept. -/
def escChar (c : Char) : List Char :=
  if c = '<' then "&lt;".toList else if c = '>' then "&gt;".toList else [c]

def escapeLtGt : List Char → List Char
  | [] => []
  | c :: rest => escChar c ++ escapeLtGt rest

/-- Proof-side normal form of `metaIconTagFor` on a freshly built descriptor:
the `userHref || href` choice always resolves to the external path, so the
tag depends on the spec alone. -/
def metaIconTagPure (spec : IconSpec) : Option (List Char) :=
  if spec.rel = "icon".toList then
    some ("<link rel=\"icon\" type=\"".toList ++ spec.type ++
      "\" sizes=\"".toList ++ (natToChars spec.size ++ ('x' :: natToChars spec.size)) ++
      "\" href=\"".toList ++ userPathFor spec.name ++ "\">".toList)
  else if spec.rel = "apple-touch-icon".toList then
    some ("<link rel=\"apple-touch-icon\" sizes=\"".toList ++
      (natToChars spec.size ++ ('x' :: natToChars spec.size)) ++
      "\" href=\"".toList ++ userPathFor spec.name ++ "\">".toList)
  else none

/-- Absence of a 16-character hex run inside an optional produced tag. -/
def optNoHexRun (o : Option (List Char)) : Bool :=
  match o with
  | none => true
  | some s => !(hasHexRun 16 s)

theorem isPrefixOf_take (l₁ l₂ : List Char) (h : l₁.isPrefixOf l₂ = true) :
    l₁.length ≤ l₂.length ∧ l₂.take l₁.length = l₁ := by
  induction l₁ generalizing l₂ with
  | nil => simp
  | cons a as ih =>
    cases l₂ with
    | nil => simp [List.isPrefixOf] at h
    | cons b bs =>
      simp only [List.isPrefixOf, Bool.and_eq_true, beq_iff_eq] at h
      obtain ⟨rfl, h2⟩ := h
      obtain ⟨hl, ht⟩ := ih bs h2
      exact ⟨by simpa using hl, by simp [ht]⟩

theorem isPrefixOf_self_append (l t : List Char) : l.isPrefixOf (l ++ t) = true := by
  induction l with
  | nil => simp [List.isPrefixOf]
  | cons a as ih => simp [List.isPrefixOf, ih]

theorem containsSub_of_isPrefixOf (pat s : List Char) (h : pat.isPrefixOf s = true) :
    containsSub pat s = true := by
  cases s with
  | nil =>
    cases pat with
    | nil => simp [containsSub]
    | cons a as => simp [List.isPrefixOf] at h
  | cons c rest => simp [containsSub, h]

theorem containsSub_cons (pat : List Char) (c : Char) (s : List Char)
    (h : containsSub pat s = true) : containsSub pat (c :: s) = true := by
  simp [containsSub, h]

/-- A pattern occurs in any string of which it is a middle segment. -/
theorem containsSub_middle (pat x y : List Char) :
    containsSub pat (x ++ (pat ++ y)) = true := by
  induction x with
  | nil => exact containsSub_of_isPrefixOf _ _ (isPrefixOf_self_append pat y)
  | cons c cs ih => exact containsSub_cons _ _ _ ih

theorem containsSub_hexRun (pat s : List Char) (h : containsSub pat s = true)
    (hh : pat.all isHexDigit = true) : hasHexRun pat.length s = true := by
  induction s with
  | nil =>
    simp only [containsSub, List.isEmpty_iff] at h
    subst h
    simp [hasHexRun, hexWindow]
  | cons c rest ih =>
    simp only [containsSub, Bool.or_eq_true] at h
    rcases h with h | h
    · obtain ⟨hl, ht⟩ := isPrefixOf_take _ _ h
      have hl' : pat.length ≤ rest.length + 1 := by simpa using hl
      simp only [hasHexRun, Bool.or_eq_true]
      exact Or.inl (by simp [hexWindow, hl', ht, hh])
    · simp [hasHexRun, ih h]

/-- A sufficiently long all-hex pattern cannot occur in a string with no
matching hex run. -/
theorem noHexSub (pat s : List Char) (hh : pat.all isHexDigit = true)
    (hlen : pat.length = 16) (hrun : hasHexRun 16 s = false) :
    containsSub pat s = false := by
  cases hcs : containsSub pat s with
  | false => rfl
  | true =>
    have := containsSub_hexRun pat s hcs hh
    rw [hlen] at this
    rw [this] at hrun
    exact absurd hrun (by simp)

theorem takeWhile_append_all (p : Char → Bool) (l₁ l₂ : List Char)
    (h : ∀ x ∈ l₁, p x = true) :
    (l₁ ++ l₂).takeWhile p = l₁ ++ l₂.takeWhile p := by
  induction l₁ with
  | nil => simp
  | cons a as ih =>
    have ha : p a = true := h a (by simp)
    simp only [List.cons_append, List.takeWhile_cons, ha, if_true]
    simp [ih (fun x hx => h x (by simp [hx]))]

/-- `path.basename` of `generated/sessions/<sid>` recovers the session id
whenever the id contains no slash. -/
theorem jsBasename_sessions (sid : List Char) (h : ∀ c ∈ sid, c ≠ '/') :
    jsBasename ("generated/sessions/".toList ++ sid) = sid := by
  unfold jsBasename
  rw [List.reverse_append]
  rw [takeWhile_append_all _ _ _ (by
    intro x hx
    have := h x (by simpa using hx)
    simp [this])]
  have : ("generated/sessions/".toList.reverse.takeWhile (fun c => c != '/')) = [] := by
    decide
  rw [this]
  simp

theorem dropWhile_head?_not (p : Char → Bool) (m : List Char) (c : Char)
    (h : (m.dropWhile p).head? = some c) : p c = false := by
  induction m with
  | nil => simp at h
  | cons a as ih =>
    by_cases hp : p a = true
    · rw [List.dropWhile_cons_of_pos hp] at h
      exact ih h
    · rw [List.dropWhile_cons_of_neg hp] at h
      simp only [List.head?_cons, Option.some.injEq] at h
      subst h
      simpa using hp

/-- The result of stripping trailing slashes never ends with a slash. -/
theorem stripTrailingSlashes_getLast? (l : List Char) :
    ((stripTrailingSlashes l).getLast? == some '/') = false := by
  unfold stripTrailingSlashes dropWhileRight
  cases hh : (l.reverse.dropWhile (fun c => c = '/')).head? with
  | none =>
    have : l.reverse.dropWhile (fun c => c = '/') = [] := by
      cases hc : l.reverse.dropWhile (fun c => c = '/') with
      | nil => rfl
      | cons x xs => rw [hc] at hh; simp at hh
    simp [this]
  | some c =>
    have hpc := dropWhile_head?_not _ _ _ hh
    have : (l.reverse.dropWhile (fun c => c = '/')).reverse.getLast? = some c := by
      rw [List.getLast?_reverse, hh]
    rw [this]
    have hne : c ≠ '/' := by simpa using hpc
    simp [beq_eq_false_iff_ne, hne]

theorem replaceAllChar_append (c : Char) (rep a b : List Char) :
    replaceAllChar c rep (a ++ b) = replaceAllChar c rep a ++ replaceAllChar c rep b := by
  induction a with
  | nil => rfl
  | cons x xs ih => simp [replaceAllChar, ih]

/-- The two sequential global replaces of `sanitizeText` act character-wise:
no character produced by the first replace is touched by the second. -/
theorem replace_lt_gt_eq_escape (l : List Char) :
    replaceAllChar '>' "&gt;".toList (replaceAllChar '<' "&lt;".toList l) =
      escapeLtGt l := by
  induction l with
  | nil => rfl
  | cons c rest ih =>
    show replaceAllChar '>' "&gt;".toList
        ((if c = '<' then "&lt;".toList else [c]) ++
          replaceAllChar '<' "&lt;".toList rest) = escChar c ++ escapeLtGt rest
    rw [replaceAllChar_append, ih]
    by_cases h1 : c = '<'
    · subst h1
      rw [if_pos rfl]
      have hL : replaceAllChar '>' "&gt;".toList "&lt;".toList = "&lt;".toList := by decide
      rw [hL]
      show "&lt;".toList ++ escapeLtGt rest = escChar '<' ++ escapeLtGt rest
      rfl
    · by_cases h2 : c = '>'
      · subst h2
        rw [if_neg h1]
        have hG : replaceAllChar '>' "&gt;".toList ['>'] = "&gt;".toList := by decide
        rw [hG]
        show "&gt;".toList ++ escapeLtGt rest = escChar '>' ++ escapeLtGt rest
        rfl
      · rw [if_neg h1]
        simp [replaceAllChar, escChar, h1, h2]

/-! ## Claim theorems -/

/-- C4, counterexample: the fixed catalog does not contain fourteen square
size variants — filtering the social-preview entry out of `iconSizes`
leaves nine entries, not fourteen. -/
theorem c4_counterexample :
    ¬ ((iconSizes.filter fun s => decide (s.rel ≠ "og-image".toList)).length = 14) := by
  decide

/-- C4 (amended): the Image Rasterizer's fixed catalog consists of nine
square size variants 16, 32, 48, 64, 96, 128 (generic favicon sizes),
one 180x180 touch icon, and the Android sizes 192 and 512, plus one
1200x630 social-preview image that is composited centered over an opaque
solid background rather than simply resized. -/
theorem c4_theorem :
    (iconSizes.filter fun s => decide (s.rel ≠ "og-image".toList)).map (fun s => s.size) =
      [16, 32, 48, 64, 96, 128, 180, 192, 512]
    ∧ (iconSizes.filter fun s => decide (s.rel ≠ "og-image".toList)).length = 9
    ∧ (iconSizes.filter fun s => decide (s.rel = "apple-touch-icon".toList)).map
        (fun s => s.size) = [180]
    ∧ (iconSizes.filter fun s => decide (s.rel = "og-image".toList)).map
        (fun s => (s.name, s.width, s.height)) =
        [("og-image.png".toList, some 1200, some 630)]
    ∧ (generateIcons (fun _ => true) none).ogImage =
        some ⟨"/generated/icons/og-image.png".toList, "/icons/og-image.png".toList,
          1200, 630, "image/png".toList⟩
    ∧ isCompositeOverSolid ogImageExpr = true
    ∧ isResizeOfSource ogImageExpr = false
    ∧ isResizeOfSource (squareIconExpr 16) = true := by
  decide

/-- C6, counterexample: the descriptor push in the `generateIcons` loop is
not restricted to square variants — the social-preview descriptor
`og-image.png` also appears in the `icons` list of the returned catalog
(labelled `1200x1200`), refuting that the icons list contains only the
square icon variants. -/
theorem c6_counterexample :
    ("og-image.png".toList ∈
      (generateIcons (fun _ => true)
        (some "generated/sessions/0123456789abcdef".toList)).icons.map (fun d => d.name))
    ∧ ((generateIcons (fun _ => true)
        (some "generated/sessions/0123456789abcdef".toList)).icons.filter
        (fun d => decide (d.rel = "og-image".toList))).map (fun d => d.sizes) =
      ["1200x1200".toList] := by
  decide

/-- C6 (amended): the social-preview image is tracked as the distinguished
separate `ogImage` descriptor, but the `icons` list of the returned catalog
is not limited to the square variants: it holds ten descriptors — the nine
square icon variants plus a tenth descriptor for `og-image.png` (rel
`og-image`, labelled `1200x1200`), because the push in the loop is outside
the square-only branch. -/
theorem c6_theorem (sessionDir : Option (List Char)) :
    (generateIcons (fun _ => true) sessionDir).icons.length = 10
    ∧ ((generateIcons (fun _ => true) sessionDir).icons.filter
        (fun d => decide (d.rel = "og-image".toList))).map (fun d => (d.name, d.sizes)) =
        [("og-image.png".toList, "1200x1200".toList)]
    ∧ ((generateIcons (fun _ => true) sessionDir).icons.filter
        (fun d => decide (d.rel ≠ "og-image".toList))).length = 9
    ∧ (generateIcons (fun _ => true) sessionDir).ogImage =
        some { href := serverPathFor sessionDir "og-image.png".toList,
               userHref := "/icons/og-image.png".toList,
               width := 1200, height := 630, type := "image/png".toList } := by
  exact ⟨rfl, rfl, rfl, rfl⟩

/-- C10: the generated web manifest and browserconfig contents are constants
independent of every input — the manifest always carries the placeholder
name `Your Website` and lists exactly the two Android icon external paths,
and the browserconfig XML references the same two paths; `generateIcons`
emits exactly these constants whatever the render oracle says. -/
theorem c10_theorem (d1 d2 : Option (List Char)) (renderOk : List Char → Bool) :
    (generateWebManifest d1).content = (generateWebManifest d2).content
    ∧ (generateWebManifest d1).content.name = "Your Website".toList
    ∧ (generateWebManifest d1).content.icons.map (fun i => i.src) =
        ["/icons/android-chrome-192x192.png".toList,
         "/icons/android-chrome-512x512.png".toList]
    ∧ (generateBrowserConfig d1).content = (generateBrowserConfig d2).content
    ∧ containsSub "/icons/android-chrome-192x192.png".toList
        (generateBrowserConfig none).content = true
    ∧ containsSub "/icons/android-chrome-512x512.png".toList
        (generateBrowserConfig none).content = true
    ∧ (generateIcons renderOk d1).webManifest = generateWebManifest d1
    ∧ (generateIcons renderOk d1).browserConfig = generateBrowserConfig d1 := by
  refine ⟨rfl, rfl, rfl, rfl, by decide, by decide, rfl, rfl⟩

/-- C7: `generateSEO` trims the title and description and escapes exactly the
characters `<` and `>` (to `&lt;`/`&gt;`, character-wise, no other
filtering), and trims the site URL and strips its trailing slashes (so the
canonical URL never ends in `/`); in particular title `My Site <script>`
escapes to `My Site &lt;script&gt;` and URL `https://example.com/`
canonicalises to `https://example.com`. -/
theorem c7_theorem (isURL : List Char → Bool) (today t d u : List Char)
    (sl : Option (List Char)) (icon : Option IconData) (sid : List Char) :
    (generateSEO isURL today t d u sl icon sid).title = escapeLtGt (jsTrim t)
    ∧ (generateSEO isURL today t d u sl icon sid).description = escapeLtGt (jsTrim d)
    ∧ (generateSEO isURL today t d u sl icon sid).websiteUrl =
        stripTrailingSlashes (jsTrim u)
    ∧ (((generateSEO isURL today t d u sl icon sid).websiteUrl).getLast? ==
        some '/') = false
    ∧ sanitizeText "My Site <script>".toList = "My Site &lt;script&gt;".toList
    ∧ cleanWebsiteUrl "https://example.com/".toList = "https://example.com".toList := by
  refine ⟨?_, ?_, rfl, ?_, by decide, by decide⟩
  · exact replace_lt_gt_eq_escape (jsTrim t)
  · exact replace_lt_gt_eq_escape (jsTrim d)
  · exact stripTrailingSlashes_getLast? (jsTrim u)

/-- C8: when the user identified by the session has fewer than the required
1 credit, the enhance-description request answers with the distinct
InsufficientCredits outcome (the 402 response, distinct from the generic
500 failure), no upstream enhancement call is issued, and the credit table
is untouched. -/
theorem c8_theorem (rows : List UserRow) (uid : Nat) (d : Option (List Char))
    (aiText : List Char) (u : UserRow)
    (hu : getUserById rows uid = some u) (hc : u.credits < 1) :
    (enhanceRequest rows (some uid) d aiText).resp = .insufficient402
    ∧ (enhanceRequest rows (some uid) d aiText).aiCalled = false
    ∧ (enhanceRequest rows (some uid) d aiText).rows = rows
    ∧ EnhResp.insufficient402 ≠ EnhResp.serverError500 := by
  simp only [enhanceRequest, hu]
  rw [if_pos hc]
  exact ⟨rfl, rfl, rfl, by decide⟩

/-- C8 witness: a user with 0 credits gets the 402 outcome and no upstream
call. -/
theorem c8_witness :
    (enhanceRequest [⟨1, 0⟩] (some 1) (some "hello".toList) "x".toList).resp =
        .insufficient402
    ∧ (enhanceRequest [⟨1, 0⟩] (some 1) (some "hello".toList) "x".toList).aiCalled =
        false := by
  have h := c8_theorem [⟨1, 0⟩] 1 (some "hello".toList) "x".toList ⟨1, 0⟩
    (by decide) (by decide)
  exact ⟨h.1, h.2.1⟩

/-- C9: the conditional UPDATE of `updateCredits` debits only under a
sufficient balance: for a nonnegative debit, nonnegative balances stay
nonnegative, the insufficient-credits rejection leaves the table unchanged,
and a successful debit implies some row with the requested id had balance
at least the debit. -/
theorem c9_theorem (rows : List UserRow) (uid : Nat) (n : Int) (hn : 0 ≤ n) :
    ((∀ r ∈ rows, 0 ≤ r.credits) →
      ∀ r ∈ (updateCredits rows uid n).1, 0 ≤ r.credits)
    ∧ (∀ e, (updateCredits rows uid n).2 = .error e →
        (updateCredits rows uid n).1 = rows)
    ∧ (∀ b, (updateCredits rows uid n).2 = .ok b →
        ∃ r ∈ rows, r.id = uid ∧ n ≤ r.credits) := by
  have hfst : (updateCredits rows uid n).1 =
      rows.map (fun r =>
        if creditRowPred uid n r then { r with credits := r.credits - n } else r) := by
    unfold updateCredits
    split <;> rfl
  refine ⟨?_, ?_, ?_⟩
  · intro hpos r hr
    rw [hfst] at hr
    obtain ⟨a, ha, rfl⟩ := List.mem_map.mp hr
    by_cases hp : creditRowPred uid n a = true
    · rw [if_pos hp]
      have h2 := (of_decide_eq_true hp).2
      show 0 ≤ a.credits - n
      omega
    · rw [if_neg hp]
      exact hpos a ha
  · intro e he
    unfold updateCredits at he
    split at he
    · rename_i h0
      rw [hfst]
      have hz := List.countP_eq_zero.mp h0
      have : ∀ a ∈ rows,
          (if creditRowPred uid n a then { a with credits := a.credits - n } else a) = a := by
        intro a ha
        rw [if_neg (by simpa using hz a ha)]
      rw [List.map_congr_left this, List.map_id']
    · simp at he
  · intro b hb
    unfold updateCredits at hb
    split at hb
    · simp at hb
    · rename_i h0
      have hpos : 0 < rows.countP (creditRowPred uid n) := Nat.pos_of_ne_zero h0
      obtain ⟨a, ha, hp⟩ := List.countP_pos_iff.mp hpos
      exact ⟨a, ha, of_decide_eq_true hp⟩

/-- C9 witness: a concrete debit of 2 from a balance of 5 keeps the stored
balance nonnegative. -/
theorem c9_witness :
    0 ≤ ((updateCredits [⟨1, 5⟩] 1 2).1.headD ⟨0, 0⟩).credits := by
  have h := c9_theorem [⟨1, 5⟩] 1 2 (by decide)
  exact h.1 (by decide) _ (by decide)

/-- C3, counterexample: directory-creation failures are not fatal — with an
oracle under which every `fs.mkdir` fails, `createSessionDirectories`
creates nothing yet still returns the session path, and the generate
request still succeeds. -/
theorem c3_counterexample :
    (createSessionDirectories (fun _ => false) "0123456789abcdef".toList).created = []
    ∧ (createSessionDirectories (fun _ => false) "0123456789abcdef".toList).returnedDir =
        "generated/sessions/0123456789abcdef".toList
    ∧ isSuccess (postGenerate (fun _ => false) (fun _ => true) true jsIsValidURL
        "2026-01-01".toList "0123456789abcdef".toList
        ⟨some "T".toList, some "D".toList, some "https://example.com".toList,
          none, none⟩) = true := by
  exact ⟨rfl, rfl, rfl⟩

/-- C3 (amended): session allocation attempts the namespace directory and
the required subdirectories (icons, temp) before returning, and every
directory whose creation succeeds is created; but a creation failure is
caught and logged per directory, the session path is returned regardless,
and the generation request proceeds identically whether or not any mkdir
succeeded — a failure here is not fatal to the request. -/
theorem c3_theorem (mkdirOk mkdirOk2 renderOk : List Char → Bool) (decodeOk : Bool)
    (isURL : List Char → Bool) (today sid : List Char) (req : GenRequest) :
    (createSessionDirectories mkdirOk sid).returnedDir = sessionDirOf sid
    ∧ sessionDirOf sid ++ "/icons".toList ∈ sessionDirsToCreate sid
    ∧ sessionDirOf sid ++ "/temp".toList ∈ sessionDirsToCreate sid
    ∧ (∀ dir ∈ sessionDirsToCreate sid, mkdirOk dir = true →
        dir ∈ (createSessionDirectories mkdirOk sid).created)
    ∧ postGenerate mkdirOk renderOk decodeOk isURL today sid req =
        postGenerate mkdirOk2 renderOk decodeOk isURL today sid req := by
  refine ⟨rfl, ?_, ?_, ?_, rfl⟩
  · simp [sessionDirsToCreate]
  · simp [sessionDirsToCreate]
  · intro dir hdir hok
    exact List.mem_filter.mpr ⟨hdir, hok⟩

/-- C3 witness: with a succeeding mkdir oracle, the icons subdirectory of
the namespace is among the created directories. -/
theorem c3_witness :
    "generated/sessions/0123456789abcdef/icons".toList ∈
      (createSessionDirectories (fun _ => true) "0123456789abcdef".toList).created := by
  have h := c3_theorem (fun _ => true) (fun _ => true) (fun _ => true) true
    jsIsValidURL "2026-01-01".toList "0123456789abcdef".toList
    ⟨none, none, none, none, none⟩
  exact h.2.2.2.1 _ (by decide) rfl

/-- C2, counterexample: the try/catch of the sweep is outside the loop, so a
failed removal aborts the remainder — here the expired namespace `b`
survives the sweep because removing the earlier expired namespace `a`
failed, refuting that one failure does not abort the sweep of the
remaining namespaces. -/
theorem c2_counterexample :
    (⟨"b".toList, 0, true⟩ : SessEntry) ∈
      cleanupOldSessions (fun nm => decide (nm ≠ "a".toList)) (10 * ttlMs)
        [⟨"a".toList, 0, true⟩, ⟨"b".toList, 0, true⟩]
    ∧ (0 : Int) < 10 * ttlMs - ttlMs
    ∧ cleanupOldSessions (fun _ => true) (10 * ttlMs)
        [⟨"a".toList, 0, true⟩, ⟨"b".toList, 0, true⟩] = [] := by
  refine ⟨?_, by decide, by decide⟩
  decide

/-- C2 (amended): as long as no removal fails, the sweep removes exactly the
directory entries whose last-modified time exceeds the two-hour TTL — in
particular a namespace last modified 3 hours ago is removed and one
modified 1 hour ago is untouched; however, a removal failure is caught only
at the whole-sweep level, so it aborts the sweep of the remaining
namespaces. -/
theorem c2_theorem (rmOk : List Char → Bool) (nowMs : Int)
    (sessions : List SessEntry)
    (hok : ∀ s ∈ sessions, s.isDir = true → s.mtimeMs < nowMs - ttlMs →
      rmOk s.name = true) :
    cleanupOldSessions rmOk nowMs sessions =
      sessions.filter (fun s => !(s.isDir && decide (s.mtimeMs < nowMs - ttlMs)))
    ∧ (∀ s ∈ sessions, s.isDir = true → s.mtimeMs = nowMs - 3 * 3600000 →
        s ∉ cleanupOldSessions rmOk nowMs sessions)
    ∧ (∀ s ∈ sessions, s.mtimeMs = nowMs - 3600000 →
        s ∈ cleanupOldSessions rmOk nowMs sessions) := by
  have hfil : cleanupOldSessions rmOk nowMs sessions =
      sessions.filter (fun s => !(s.isDir && decide (s.mtimeMs < nowMs - ttlMs))) := by
    unfold cleanupOldSessions
    induction sessions with
    | nil => rfl
    | cons s rest ih =>
      by_cases hd : s.isDir ∧ s.mtimeMs < nowMs - ttlMs
      · have hrm : rmOk s.name = true := hok s (by simp) hd.1 hd.2
        show sweepSessions rmOk (nowMs - ttlMs) (s :: rest) = _
        unfold sweepSessions
        rw [if_pos hd, if_pos hrm]
        rw [ih (fun x hx => hok x (by simp [hx]))]
        have hps : (!(s.isDir && decide (s.mtimeMs < nowMs - ttlMs))) = false := by
          simp [hd.1, hd.2]
        rw [List.filter_cons, if_neg (ne_true_of_eq_false hps)]
      · show sweepSessions rmOk (nowMs - ttlMs) (s :: rest) = _
        unfold sweepSessions
        rw [if_neg hd]
        rw [ih (fun x hx => hok x (by simp [hx]))]
        have hps : (!(s.isDir && decide (s.mtimeMs < nowMs - ttlMs))) = true := by
          rcases not_and_or.mp hd with h | h
          · have hfalse : s.isDir = false := by
              cases hb : s.isDir with
              | false => rfl
              | true => exact absurd hb h
            simp [hfalse]
          · simp [h]
        rw [List.filter_cons, if_pos hps]
  refine ⟨hfil, ?_, ?_⟩
  · intro s hs hdir hm hmem
    rw [hfil] at hmem
    have := (List.mem_filter.mp hmem).2
    have hexp : s.mtimeMs < nowMs - ttlMs := by
      rw [hm]
      unfold ttlMs
      omega
    simp [hdir, hexp] at this
  · intro s hs hm
    rw [hfil]
    refine List.mem_filter.mpr ⟨hs, ?_⟩
    have hnexp : ¬(s.mtimeMs < nowMs - ttlMs) := by
      rw [hm]
      unfold ttlMs
      omega
    simp [hnexp]

/-- C2 witness: with no removal failures, a namespace modified 3 hours ago
is removed by the sweep and one modified 1 hour ago survives. -/
theorem c2_witness :
    (⟨"old".toList, 89200000, true⟩ : SessEntry) ∉
      cleanupOldSessions (fun _ => true) 100000000
        [⟨"old".toList, 89200000, true⟩, ⟨"new".toList, 96400000, true⟩]
    ∧ (⟨"new".toList, 96400000, true⟩ : SessEntry) ∈
      cleanupOldSessions (fun _ => true) 100000000
        [⟨"old".toList, 89200000, true⟩, ⟨"new".toList, 96400000, true⟩] := by
  have h := c2_theorem (fun _ => true) 100000000
    [⟨"old".toList, 89200000, true⟩, ⟨"new".toList, 96400000, true⟩]
    (fun _ _ _ _ => rfl)
  exact ⟨h.2.1 _ (by simp) rfl (by decide), h.2.2 _ (by simp) (by decide)⟩

/-- The entry built for one parsed site link by the `urlEntries` map of
`generateSitemapTemplate` (part_002 lines 283-294). -/
theorem sitemapUrlEntries_eq_map (today websiteUrl : List Char)
    (siteLinks : List (List Char)) :
    sitemapUrlEntries today websiteUrl siteLinks =
      siteLinks.map (fun url =>
        { loc := if url.getLast? = some '/' then url else url ++ ['/']
          lastmod := today
          changefreq := if (url = websiteUrl || url = websiteUrl ++ ['/'] : Bool)
            then "daily".toList else "weekly".toList
          priority := if (url = websiteUrl || url = websiteUrl ++ ['/'] : Bool)
            then "1.0".toList else "0.8".toList }) := rfl

/-- C1, counterexample: when the parsed links already contain the canonical
URL at a later position, it is NOT moved to the front — for raw links
`https://example.com/about` then `https://example.com`, entry 0 of the
sitemap is the about page with priority 0.8/weekly, not the canonical
homepage with priority 1.0/daily. -/
theorem c1_counterexample :
    (generateSEO jsIsValidURL "2026-01-01".toList "T".toList "D".toList
        "https://example.com/".toList
        (some "https://example.com/about\nhttps://example.com".toList)
        none "s".toList).siteLinks =
      ["https://example.com/about".toList, "https://example.com".toList]
    ∧ (generateSEO jsIsValidURL "2026-01-01".toList "T".toList "D".toList
        "https://example.com/".toList
        (some "https://example.com/about\nhttps://example.com".toList)
        none "s".toList).sitemapEntries.head? =
      some ⟨"https://example.com/about/".toList, "2026-01-01".toList,
        "weekly".toList, "0.8".toList⟩
    ∧ "https://example.com/about/".toList ≠ "https://example.com/".toList := by
  refine ⟨by decide, by decide, by decide⟩

/-- C1 (amended): the sitemap has exactly one entry per parsed site link and
the parsed links always contain the canonical homepage (with or without
trailing slash); whenever the parsed raw links do not already contain the
canonical URL it is prepended, making entry 0 the canonical homepage with
priority 1.0 and changefreq daily; when the canonical URL is already
present it keeps its original position — which need not be index 0 — and
its sitemap entry carries priority 1.0 and changefreq daily there. -/
theorem c1_theorem (isURL : List Char → Bool) (today rawUrl : List Char)
    (siteLinks : Option (List Char)) :
    (sitemapUrlEntries today (cleanWebsiteUrl rawUrl)
        (parseSiteLinks isURL siteLinks (cleanWebsiteUrl rawUrl))).length =
      (parseSiteLinks isURL siteLinks (cleanWebsiteUrl rawUrl)).length
    ∧ (cleanWebsiteUrl rawUrl ∈ parseSiteLinks isURL siteLinks (cleanWebsiteUrl rawUrl)
        ∨ cleanWebsiteUrl rawUrl ++ ['/'] ∈
            parseSiteLinks isURL siteLinks (cleanWebsiteUrl rawUrl))
    ∧ (∀ raw, siteLinks = some raw →
        cleanWebsiteUrl rawUrl ∉ filteredSiteLinks isURL raw →
        cleanWebsiteUrl rawUrl ++ ['/'] ∉ filteredSiteLinks isURL raw →
        (parseSiteLinks isURL siteLinks (cleanWebsiteUrl rawUrl)).head? =
            some (cleanWebsiteUrl rawUrl)
          ∧ (sitemapUrlEntries today (cleanWebsiteUrl rawUrl)
              (parseSiteLinks isURL siteLinks (cleanWebsiteUrl rawUrl))).head? =
            some ⟨cleanWebsiteUrl rawUrl ++ ['/'], today,
              "daily".toList, "1.0".toList⟩)
    ∧ (∀ i : Nat,
        ((parseSiteLinks isURL siteLinks (cleanWebsiteUrl rawUrl)).get? i =
            some (cleanWebsiteUrl rawUrl)
          ∨ (parseSiteLinks isURL siteLinks (cleanWebsiteUrl rawUrl)).get? i =
            some (cleanWebsiteUrl rawUrl ++ ['/'])) →
        (sitemapUrlEntries today (cleanWebsiteUrl rawUrl)
            (parseSiteLinks isURL siteLinks (cleanWebsiteUrl rawUrl))).get? i =
          some ⟨cleanWebsiteUrl rawUrl ++ ['/'], today,
            "daily".toList, "1.0".toList⟩) := by
  have hns : ¬((cleanWebsiteUrl rawUrl).getLast? = some '/') := by
    have := stripTrailingSlashes_getLast? (jsTrim rawUrl)
    simpa using this
  refine ⟨by simp [sitemapUrlEntries], ?_, ?_, ?_⟩
  · cases siteLinks with
    | none => simp [parseSiteLinks]
    | some raw =>
      simp only [parseSiteLinks]
      by_cases he : (jsTrim raw).isEmpty
      · rw [if_pos he]
        simp
      · rw [if_neg he]
        by_cases hcond : cleanWebsiteUrl rawUrl ∉ filteredSiteLinks isURL raw ∧
            cleanWebsiteUrl rawUrl ++ ['/'] ∉ filteredSiteLinks isURL raw
        · rw [if_pos hcond]
          exact Or.inl (List.mem_cons_self _ _)
        · rw [if_neg hcond]
          rcases not_and_or.mp hcond with h | h
          · have hmem := not_not.mp h
            have hlen : (filteredSiteLinks isURL raw).length > 0 :=
              List.length_pos.mpr (List.ne_nil_of_mem hmem)
            rw [if_pos hlen]
            exact Or.inl hmem
          · have hmem := not_not.mp h
            have hlen : (filteredSiteLinks isURL raw).length > 0 :=
              List.length_pos.mpr (List.ne_nil_of_mem hmem)
            rw [if_pos hlen]
            exact Or.inr hmem
  · intro raw hsl hn1 hn2
    subst hsl
    simp only [parseSiteLinks]
    by_cases he : (jsTrim raw).isEmpty
    · rw [if_pos he]
      refine ⟨rfl, ?_⟩
      rw [sitemapUrlEntries_eq_map]
      simp [hns]
    · rw [if_neg he, if_pos ⟨hn1, hn2⟩]
      refine ⟨rfl, ?_⟩
      rw [sitemapUrlEntries_eq_map]
      simp [hns]
  · intro i hi
    rw [sitemapUrlEntries_eq_map, List.get?_map]
    rcases hi with hi | hi
    · rw [hi]
      simp [hns]
    · rw [hi]
      simp

/-- C1 witness: for raw links not containing the canonical URL, entry 0 of
the sitemap is the canonical homepage with priority 1.0 and changefreq
daily. -/
theorem c1_witness :
    (sitemapUrlEntries "2026-01-01".toList "https://example.com".toList
      (parseSiteLinks jsIsValidURL (some "https://example.com/page1".toList)
        "https://example.com".toList)).head? =
      some ⟨"https://example.com/".toList, "2026-01-01".toList,
        "daily".toList, "1.0".toList⟩ := by
  have h := c1_theorem jsIsValidURL "2026-01-01".toList
    "https://example.com/".toList (some "https://example.com/page1".toList)
  have hu : cleanWebsiteUrl "https://example.com/".toList =
      "https://example.com".toList := by decide
  rw [hu] at h
  exact (h.2.2.1 _ rfl (by decide) (by decide)).2

theorem jsOr_userPathFor (name x : List Char) :
    jsOr (userPathFor name) x = userPathFor name := by
  unfold userPathFor
  split
  · rfl
  · rfl

theorem metaIconTagFor_descriptor (dir : Option (List Char)) (spec : IconSpec) :
    metaIconTagFor (iconDescriptorFor dir spec) = metaIconTagPure spec := by
  simp only [metaIconTagFor, iconDescriptorFor, metaIconTagPure, jsOr_userPathFor]

/-- C5: for a 16-character hex session identifier, every produced icon
descriptor's internal path contains the session identifier while its
external path does not; the same holds for the social-preview descriptor
(whose embedded reference resolves to the external path); and every icon
link tag that the catalog adds to the meta tags — every tag not already in
the icon-free output — is free of the session identifier, i.e. deliverable
artifacts reference icons only through external paths. -/
theorem c5_theorem (sid : List Char) (renderOk : List Char → Bool)
    (t d u : List Char)
    (hhex : sid.all isHexDigit = true) (hlen : sid.length = 16) :
    (∀ icon ∈ (generateIcons renderOk (some (sessionDirOf sid))).icons,
        containsSub sid icon.href = true ∧ containsSub sid icon.userHref = false)
    ∧ (∀ og, (generateIcons renderOk (some (sessionDirOf sid))).ogImage = some og →
        containsSub sid og.href = true ∧ containsSub sid og.userHref = false ∧
        containsSub sid (jsOr og.userHref og.href) = false)
    ∧ (∀ tag ∈ generateMetaTags t d u
          (some (generateIcons renderOk (some (sessionDirOf sid)))),
        tag ∉ generateMetaTags t d u none → containsSub sid tag = false) := by
  have hslash : ∀ c ∈ sid, c ≠ '/' := by
    intro c hc hceq
    have hx := List.all_eq_true.mp hhex c hc
    subst hceq
    exact absurd hx (by decide)
  have hbase : jsBasename (sessionDirOf sid) = sid := jsBasename_sessions sid hslash
  have hhref : ∀ name,
      containsSub sid (serverPathFor (some (sessionDirOf sid)) name) = true := by
    intro name
    show containsSub sid
      ("/generated/sessions/".toList ++
        (jsBasename (sessionDirOf sid) ++ ("/icons/".toList ++ name))) = true
    rw [hbase]
    exact containsSub_middle sid _ _
  have huser : ∀ spec ∈ iconSizes, hasHexRun 16 (userPathFor spec.name) = false := by
    decide
  refine ⟨?_, ?_, ?_⟩
  · intro icon hicon
    simp only [generateIcons] at hicon
    obtain ⟨spec, hspec, hf⟩ := List.mem_filterMap.mp hicon
    by_cases hro : renderOk spec.name = true
    · rw [if_pos hro] at hf
      obtain rfl := Option.some.inj hf
      exact ⟨hhref spec.name, noHexSub sid _ hhex hlen (huser spec hspec)⟩
    · rw [if_neg hro] at hf
      exact absurd hf (by simp)
  · intro og hog
    simp only [generateIcons] at hog
    by_cases hro : renderOk "og-image.png".toList = true
    · rw [if_pos hro] at hog
      obtain rfl := Option.some.inj hog
      refine ⟨hhref _,
        noHexSub sid "/icons/og-image.png".toList hhex hlen (by decide), ?_⟩
      show containsSub sid
        (jsOr "/icons/og-image.png".toList
          (serverPathFor (some (sessionDirOf sid)) "og-image.png".toList)) = false
      rw [show jsOr "/icons/og-image.png".toList
          (serverPathFor (some (sessionDirOf sid)) "og-image.png".toList) =
          "/icons/og-image.png".toList from rfl]
      exact noHexSub sid _ hhex hlen (by decide)
    · rw [if_neg hro] at hog
      exact absurd hog (by simp)
  · intro tag htag hnot
    simp only [generateMetaTags] at htag
    rcases List.mem_append.mp htag with hb | hx
    · exact absurd hb hnot
    · obtain ⟨icon, hicon, hg⟩ := List.mem_filterMap.mp hx
      simp only [generateIcons] at hicon
      obtain ⟨spec, hspec, hf⟩ := List.mem_filterMap.mp hicon
      by_cases hro : renderOk spec.name = true
      · rw [if_pos hro] at hf
        obtain rfl := Option.some.inj hf
        rw [metaIconTagFor_descriptor] at hg
        have hall : ∀ s ∈ iconSizes, optNoHexRun (metaIconTagPure s) = true := by
          decide
        have hofs := hall spec hspec
        rw [hg] at hofs
        have : hasHexRun 16 tag = false := by
          simpa [optNoHexRun] using hofs
        exact noHexSub sid tag hhex hlen this
      · rw [if_neg hro] at hf
        exact absurd hf (by simp)

/-- C5 witness: for the concrete session id `0123456789abcdef`, the first
icon's internal path contains the id and its external path does not. -/
theorem c5_witness :
    containsSub "0123456789abcdef".toList
        "/generated/sessions/0123456789abcdef/icons/favicon-16x16.png".toList = true
    ∧ containsSub "0123456789abcdef".toList
        "/icons/favicon-16x16.png".toList = false := by
  have h := c5_theorem "0123456789abcdef".toList (fun _ => true) [] [] []
    (by decide) (by decide)
  have hm := h.1 (iconDescriptorFor (some (sessionDirOf "0123456789abcdef".toList))
    ⟨16, "favicon-16x16.png".toList, "icon".toList, "image/png".toList, none, none⟩)
    (by decide)
  exact ⟨hm.1, hm.2⟩
